import Mathlib

/-
  Verification of the InputParser library (option model + parsing engine).

  Shallow embedding of:
  - include/input_parser/constraint.hpp          (Constraint)
  - include/input_parser/option/base_option.hpp  (BaseOption<ValueType, TransformationType>)
  - include/input_parser/option/flag_option.hpp,
    single_option.hpp, compound_option.hpp       (the three variants)
  - include/input_parser/parser.hpp, src/parser.cpp (Parser, registration, scan loop)

  C++ exceptions are modelled with `Except`; since a thrown exception leaves the
  mutated object behind, state-mutating operations return the post-throw state
  along the error.  Machine maps (`std::unordered_map`) are modelled as
  association lists in insertion order.
-/

set_option maxHeartbeats 1000000

namespace InputParser

/-- Errors raised by the library: `ParsingError(msg)` (parsing_error.hpp),
`std::invalid_argument(msg)`, `std::out_of_range` (a missing key under
`std::unordered_map::at`) and `std::bad_any_cast` (an `any_cast` to the
wrong type). -/
inductive Err where
  | parsing (msg : String)
  | invalidArgument (msg : String)
  | outOfRange
  | badAnyCast
  deriving DecidableEq

/-- `Constraint<T>` (constraint.hpp): a predicate `call_` over a typed value
plus an error message `error_message_`. -/
structure Constraint (α : Type) where
  call : α → Bool
  errorMessage : String

/-- `BaseOption<ValueType, TransformationType>` (base_option.hpp).  `value_`
and `default_value_` are default-constructed in C++; `has_value_` and
`has_default_value_` track whether they were assigned. -/
structure BaseOption (V T : Type) where
  value_ : V
  default_value_ : V
  names_ : List String
  description_ : String
  required_ : Bool
  transformation_ : Option (T → V)
  constraints_ : List (Constraint V)
  constraints_before_transformation_ : List (Constraint T)
  argument_name_ : String
  has_value_ : Bool
  has_default_value_ : Bool

/-- The `BaseOption` constructor: only the names are supplied (at least one,
`name, extra_names...`); every other field starts from its default. -/
def mkBaseOption (V T : Type) [Inhabited V] (name : String)
    (extra_names : List String) : BaseOption V T :=
  { value_ := default, default_value_ := default,
    names_ := name :: extra_names, description_ := "", required_ := true,
    transformation_ := none, constraints_ := [],
    constraints_before_transformation_ := [], argument_name_ := "",
    has_value_ := false, has_default_value_ := false }

/-- `BaseOption::beRequired(required)`. -/
def BaseOption.beRequired (o : BaseOption V T) (required : Bool) :
    BaseOption V T :=
  { o with required_ := required }

/-- `BaseOption::addDefaultValue(default_value)`: stores the default, marks it
present, then `return beRequired(false)`. -/
def BaseOption.addDefaultValue (o : BaseOption V T) (default_value : V) :
    BaseOption V T :=
  ({ o with default_value_ := default_value,
            has_default_value_ := true }).beRequired false

/-- `BaseOption::addDescription(description)`. -/
def BaseOption.addDescription (o : BaseOption V T) (description : String) :
    BaseOption V T :=
  { o with description_ := description }

/-- `BaseOption::addTransformation(transformation)`. -/
def BaseOption.addTransformation (o : BaseOption V T) (transformation : T → V) :
    BaseOption V T :=
  { o with transformation_ := some transformation }

/-- `BaseOption::addConstraint<T>` in the `std::is_same_v<T, ValueType>`
branch: appends to `constraints_`. -/
def BaseOption.addConstraintValue (o : BaseOption V T) (c : V → Bool)
    (error_message : String) : BaseOption V T :=
  { o with constraints_ := o.constraints_ ++ [⟨c, error_message⟩] }

/-- `BaseOption::addConstraint<T>` in the other branch: appends to
`constraints_before_transformation_`. -/
def BaseOption.addConstraintRaw (o : BaseOption V T) (c : T → Bool)
    (error_message : String) : BaseOption V T :=
  { o with constraints_before_transformation_ :=
      o.constraints_before_transformation_ ++ [⟨c, error_message⟩] }

/-- `BaseOption::isRequired()`. -/
def BaseOption.isRequired (o : BaseOption V T) : Bool := o.required_

/-- `BaseOption::hasValue()`. -/
def BaseOption.hasValue (o : BaseOption V T) : Bool := o.has_value_

/-- `BaseOption::hasDefaultValue()`. -/
def BaseOption.hasDefaultValue (o : BaseOption V T) : Bool :=
  o.has_default_value_

/-- `BaseOption::checkConstraints(value, constraints)`: walks the list in
order and throws `ParsingError` with the first failing constraint's message
(a generic message when it is empty). -/
def checkConstraints (value : α) : List (Constraint α) → Except Err Unit
  | [] => .ok ()
  | c :: rest =>
    if c.call value = false then
      .error (.parsing (if c.errorMessage = "" then "Constraint not satisfied."
                        else c.errorMessage))
    else checkConstraints value rest

/-- `BaseOption::getDefaultValue()`: throws
`std::invalid_argument("No default value")` when none was set. -/
def BaseOption.getDefaultValue (o : BaseOption V T) : Except Err V :=
  if o.has_default_value_ = false then
    .error (.invalidArgument "No default value")
  else .ok o.default_value_

/-- `BaseOption::getValue()`: the default value when no value was set,
the value otherwise. -/
def BaseOption.getValue (o : BaseOption V T) : Except Err V :=
  if o.has_value_ = false then o.getDefaultValue else .ok o.value_

/-- `BaseOption::setValue(value)` instantiated with
`ValueType = TransformationType` — the `if constexpr (std::is_same_v<VT, TT>)`
branch: assign `value_ = value`, then `checkConstraints(value_, constraints_)`
(throwing leaves `value_` assigned but `has_value_` untouched), then
`has_value_ = true`. -/
def setValueSame (o : BaseOption V V) (value : V) :
    Except (Err × BaseOption V V) (BaseOption V V) :=
  let o1 : BaseOption V V := { o with value_ := value }
  match checkConstraints o1.value_ o1.constraints_ with
  | .error e => .error (e, o1)
  | .ok _ => .ok { o1 with has_value_ := true }

/-- `BaseOption::setValue(value)` instantiated with
`ValueType ≠ TransformationType`: with a transformation, check the
before-transformation constraints, assign `value_ = transformation_(value)`,
check `constraints_`, set `has_value_`; with no transformation, throw
`std::invalid_argument("No transformation function provided.")`. -/
def setValueDiff (o : BaseOption V T) (value : T) :
    Except (Err × BaseOption V T) (BaseOption V T) :=
  match o.transformation_ with
  | some f =>
    match checkConstraints value o.constraints_before_transformation_ with
    | .error e => .error (e, o)
    | .ok _ =>
      let o1 : BaseOption V T := { o with value_ := f value }
      match checkConstraints o1.value_ o1.constraints_ with
      | .error e => .error (e, o1)
      | .ok _ => .ok { o1 with has_value_ := true }
  | none => .error (.invalidArgument "No transformation function provided.", o)

/-- `Option = std::variant<FlagOption, CompoundOption, SingleOption>`
(parser.hpp).  A flag stores a `bool` set from a `bool`; the parser hands a
single option one `std::string` token and a compound option a
`std::vector<std::string>`, stored as such in the default instantiations. -/
inductive POpt where
  | flag (o : BaseOption Bool Bool)
  | single (o : BaseOption String String)
  | compound (o : BaseOption (List String) (List String))

/-- `getNames()` of the held alternative. -/
def POpt.names : POpt → List String
  | .flag o => o.names_
  | .single o => o.names_
  | .compound o => o.names_

/-- `isRequired()` of the held alternative. -/
def POpt.isRequired : POpt → Bool
  | .flag o => o.isRequired
  | .single o => o.isRequired
  | .compound o => o.isRequired

/-- `hasValue()` of the held alternative. -/
def POpt.hasValue : POpt → Bool
  | .flag o => o.hasValue
  | .single o => o.hasValue
  | .compound o => o.hasValue

/-- `hasDefaultValue()` of the held alternative. -/
def POpt.hasDefaultValue : POpt → Bool
  | .flag o => o.hasDefaultValue
  | .single o => o.hasDefaultValue
  | .compound o => o.hasDefaultValue

/-- `getArgumentName()` of the held alternative. -/
def POpt.argumentName : POpt → String
  | .flag o => o.argument_name_
  | .single o => o.argument_name_
  | .compound o => o.argument_name_

/-- `getDescription()` of the held alternative. -/
def POpt.description : POpt → String
  | .flag o => o.description_
  | .single o => o.description_
  | .compound o => o.description_

/-- `getNames()[0]`: the primary name (vector indexing; `""` for the
out-of-contract empty-name case). -/
def POpt.primaryName (o : POpt) : String := o.names.headD ""

/-- `FlagOption(name, extra_names...)`: a flag leaves `argument_name_` empty. -/
def mkFlagOption (name : String) (extra_names : List String) : POpt :=
  .flag (mkBaseOption Bool Bool name extra_names)

/-- `SingleOption(name, extra_names...)`: sets `argument_name_ = " value"`. -/
def mkSingleOption (name : String) (extra_names : List String) : POpt :=
  .single { mkBaseOption String String name extra_names with
            argument_name_ := " value" }

/-- `CompoundOption(name, extra_names...)`: sets
`argument_name_ = " value1 value2 ..."`. -/
def mkCompoundOption (name : String) (extra_names : List String) : POpt :=
  .compound { mkBaseOption (List String) (List String) name extra_names with
              argument_name_ := " value1 value2 ..." }

/-- Map lookup (`find` / `at` read side) on an insertion-ordered
association list. -/
def lookupA : List (String × α) → String → Option α
  | [], _ => none
  | (k, v) :: rest, key => if k = key then some v else lookupA rest key

/-- Assignment through `at` (`options_.at(key) = v`-style mutation): replaces
the binding when the key is present, call sites guarantee presence. -/
def updateA : List (String × α) → String → α → List (String × α)
  | [], _, _ => []
  | (k, v) :: rest, key, nv =>
    if k = key then (k, nv) :: rest else (k, v) :: updateA rest key nv

/-- `operator[]` assignment (`names_[name] = reference_name`): overwrite when
present, insert otherwise. -/
def insertA : List (String × α) → String → α → List (String × α)
  | [], key, nv => [(key, nv)]
  | (k, v) :: rest, key, nv =>
    if k = key then (k, nv) :: rest else (k, v) :: insertA rest key nv

/-- `emplace(key, nv)`: inserts only when the key is absent. -/
def emplaceA (m : List (String × α)) (key : String) (nv : α) :
    List (String × α) :=
  if (lookupA m key).isSome then m else m ++ [(key, nv)]

/-- `Parser` (parser.hpp): `options_` keyed by each option's primary
(reference) name, `names_` mapping every alias to the reference name. -/
structure Parser where
  options_ : List (String × POpt)
  names_ : List (String × String)

/-- `Parser()`. -/
def emptyParser : Parser := { options_ := [], names_ := [] }

/-- `Parser::hasOption(name)`. -/
def hasOption (p : Parser) (name : String) : Bool :=
  (lookupA p.names_ name).isSome

/-- `Parser::getOption(name)` = `options_.at(names_.at(name))`, as a partial
lookup; `none` is the case where C++ throws `std::out_of_range`. -/
def getOptionQ (p : Parser) (name : String) : Option POpt :=
  match lookupA p.names_ name with
  | some r => lookupA p.options_ r
  | none => none

/-- Write-through of `Parser::getOption(name)`: mutates the option shared by
every alias of `name`.  The alias is registered at every call site. -/
def setOpt (p : Parser) (name : String) (o : POpt) : Parser :=
  match lookupA p.names_ name with
  | some r => { p with options_ := updateA p.options_ r o }
  | none => p

/-- The alias loop inside `Parser::addOption`: for every name, throw
`std::invalid_argument("Option already exists!")` when already registered,
otherwise `names_[name] = reference_name`.  The exception leaves the bindings
made so far in place. -/
def registerNames (reference_name : String) :
    List String → List (String × String) →
    Except (Err × List (String × String)) (List (String × String))
  | [], m => .ok m
  | n :: rest, m =>
    if (lookupA m n).isSome then
      .error (.invalidArgument "Option already exists!", m)
    else registerNames reference_name rest (insertA m n reference_name)

/-- `Parser::addOption(create_option)` after invoking the factory: register
every alias, then `options_.emplace(reference_name, option)`. -/
def addOption (p : Parser) (opt : POpt) : Except (Err × Parser) Parser :=
  let reference_name := opt.names.headD ""
  match registerNames reference_name opt.names p.names_ with
  | .error (e, m) => .error (e, { p with names_ := m })
  | .ok m => .ok { options_ := emplaceA p.options_ reference_name opt,
                   names_ := m }

/-- `Parser::addHelpOption()`: registers
`FlagOption("-h", "--help").addDescription("Shows how to use the program.")
.addDefaultValue(false)`. -/
def addHelpOption (p : Parser) : Except (Err × Parser) Parser :=
  addOption p (.flag (((mkBaseOption Bool Bool "-h" ["--help"]).addDescription
    "Shows how to use the program.").addDefaultValue false))

/-- `Parser::parseFlag(flag_name)`:
`opt.setValue(opt.hasDefaultValue() ? !opt.getDefaultValue<bool>() : true)`
(the `getDefaultValue` call is guarded, so it reads `default_value_`). -/
def flagNewValue (o : BaseOption Bool Bool) : Bool :=
  if o.hasDefaultValue then !o.default_value_ else true

/-- `Parser::parseFlag(flag_name)`: fetches the option and sets the
flag-presence value; non-flag alternatives are the `bad_any_cast` case,
unreachable behind the `hasFlag` guard. -/
def parseFlag (p : Parser) (tok : String) : Except (Err × Parser) Parser :=
  match getOptionQ p tok with
  | some (.flag o) =>
    match setValueSame o (flagNewValue o) with
    | .error (e, o2) => .error (e, setOpt p tok (.flag o2))
    | .ok o2 => .ok (setOpt p tok (.flag o2))
  | _ => .error (.badAnyCast, p)

/-- The token loop of `Parser::parse` (parser.cpp, lines 41-57) over the
tokens after the program name, with `Parser::parseSingle` and
`Parser::parseCompound` written in terms of the remaining token list instead
of an index: a single option consumes the following token unless it is absent
or registered; a compound option consumes the following tokens up to the next
registered name, requiring at least one. -/
def scan (p : Parser) : List String → Except (Err × Parser) Parser
  | [] => .ok p
  | tok :: rest =>
    if hasOption p tok = false then
      .error (.parsing "Invalid arguments provided!", p)
    else
      match getOptionQ p tok with
      | none => .error (.outOfRange, p)
      | some (.flag _) =>
        match parseFlag p tok with
        | .error ep => .error ep
        | .ok p2 => scan p2 rest
      | some (.single o) =>
        match rest with
        | [] =>
          .error (.parsing ("After the " ++ tok ++
            " option should be an extra argument!"), p)
        | arg :: rest2 =>
          if hasOption p arg then
            .error (.parsing ("After the " ++ tok ++
              " option should be an extra argument!"), p)
          else
            match setValueSame o arg with
            | .error (e, o2) => .error (e, setOpt p tok (.single o2))
            | .ok o2 => scan (setOpt p tok (.single o2)) rest2
      | some (.compound o) =>
        if (rest.takeWhile (fun t => !hasOption p t)).length = 0 then
          .error (.parsing ("After the " ++ tok ++
            " option should be at least an extra argument!"), p)
        else
          match setValueSame o (rest.takeWhile (fun t => !hasOption p t)) with
          | .error (e, o2) => .error (e, setOpt p tok (.compound o2))
          | .ok o2 =>
            scan (setOpt p tok (.compound o2))
              (rest.drop (rest.takeWhile (fun t => !hasOption p t)).length)
  termination_by toks => toks.length
  decreasing_by
    all_goals simp only [List.length_cons, List.length_drop]
    all_goals omega

/-- `Parser::checkMissingOptions` walks `options_` (one entry per option
instance) and throws at the first required option with neither a value nor a
default. -/
def firstMissing : List (String × POpt) → Option (String × POpt)
  | [] => none
  | kv :: rest =>
    if kv.2.isRequired && !kv.2.hasValue && !kv.2.hasDefaultValue then some kv
    else firstMissing rest

/-- `Parser::checkMissingOptions()`: `ParsingError("Missing option " +
opt.getNames()[0])` for the first missing required option. -/
def checkMissingOptions (p : Parser) : Except Err Unit :=
  match firstMissing p.options_ with
  | some kv => .error (.parsing ("Missing option " ++ kv.2.primaryName))
  | none => .ok ()

/-- The loop body of `Parser::usage()`: appends one option to the synopsis
(angle brackets when required, square brackets otherwise) and, when the
description is non-empty, one `name -> description` line. -/
def usageStep (acc : String × String) (kv : String × POpt) :
    String × String :=
  let brackets := if kv.2.isRequired then ("<", ">") else ("[", "]")
  ( acc.1 ++ " " ++ brackets.1 ++ kv.1 ++ kv.2.argumentName ++ brackets.2,
    if kv.2.description = "" then acc.2
    else acc.2 ++ kv.1 ++ " -> " ++ kv.2.description ++ "\n")

/-- `Parser::usage()`: the synopsis plus the description block. -/
def usage (p : Parser) : String :=
  let acc := p.options_.foldl usageStep ("Usage: ./exec_name", "")
  acc.1 ++ "\n\n" ++ acc.2 ++ "\n"

/-- `Parser::getValue<bool>(name)` (the instantiation used by
`checkHelpOption`): `ParsingError` for an unregistered name, otherwise the
held option's `getValue`; on a non-flag alternative the `bool` cast throws
`std::bad_any_cast`. -/
def getValueBool (p : Parser) (name : String) : Except Err Bool :=
  if hasOption p name = false then
    .error (.parsing ("The option " ++ name ++
      " was not assigned at the parser"))
  else
    match getOptionQ p name with
    | none => .error .outOfRange
    | some (.flag o) => o.getValue
    | some _ => .error .badAnyCast

/-- `Parser::getValue<std::string>(name)` for a default single option. -/
def getValueString (p : Parser) (name : String) : Except Err String :=
  if hasOption p name = false then
    .error (.parsing ("The option " ++ name ++
      " was not assigned at the parser"))
  else
    match getOptionQ p name with
    | none => .error .outOfRange
    | some (.single o) => o.getValue
    | some _ => .error .badAnyCast

/-- `Parser::getValue<std::vector<std::string>>(name)` for a default
compound option. -/
def getValueStrings (p : Parser) (name : String) : Except Err (List String) :=
  if hasOption p name = false then
    .error (.parsing ("The option " ++ name ++
      " was not assigned at the parser"))
  else
    match getOptionQ p name with
    | none => .error .outOfRange
    | some (.compound o) => o.getValue
    | some _ => .error .badAnyCast

/-- `Parser::checkHelpOption()`:
`if (hasOption("-h") && getValue<bool>("-h")) throw ParsingError(usage())`,
with an exception from `getValue` propagating. -/
def checkHelpOption (p : Parser) : Except Err Unit :=
  if hasOption p "-h" then
    match getValueBool p "-h" with
    | .error e => .error e
    | .ok b => if b then .error (.parsing (usage p)) else .ok ()
  else .ok ()

/-- `Parser::parse(argc, argv)`: scan the tokens after the program name, then
`checkHelpOption()`, then `checkMissingOptions()`. -/
def parse (p : Parser) (argv : List String) : Except (Err × Parser) Parser :=
  match scan p (argv.drop 1) with
  | .error ep => .error ep
  | .ok p2 =>
    match checkHelpOption p2 with
    | .error e => .error (e, p2)
    | .ok _ =>
      match checkMissingOptions p2 with
      | .error e => .error (e, p2)
      | .ok _ => .ok p2

-- ------------------------------------------------------------------
-- Helper lemmas about the map model and the scan loop
-- ------------------------------------------------------------------

theorem lookupA_insertA_self (m : List (String × α)) (k : String) (v : α) :
    lookupA (insertA m k v) k = some v := by
  induction m with
  | nil => simp [insertA, lookupA]
  | cons kv rest ih =>
    obtain ⟨k1, v1⟩ := kv
    by_cases h : k1 = k
    · simp [insertA, h, lookupA]
    · simp [insertA, h, lookupA, ih]

theorem lookupA_insertA_ne (m : List (String × α)) (k n : String) (v : α)
    (h : n ≠ k) : lookupA (insertA m k v) n = lookupA m n := by
  induction m with
  | nil => simp [insertA, lookupA, Ne.symm h]
  | cons kv rest ih =>
    obtain ⟨k1, v1⟩ := kv
    by_cases h1 : k1 = k
    · subst h1
      simp [insertA, lookupA, Ne.symm h]
    · simp [insertA, h1, lookupA, ih]

theorem lookupA_updateA_ne (m : List (String × α)) (k n : String) (v : α)
    (h : n ≠ k) : lookupA (updateA m k v) n = lookupA m n := by
  induction m with
  | nil => simp [updateA, lookupA]
  | cons kv rest ih =>
    obtain ⟨k1, v1⟩ := kv
    by_cases h1 : k1 = k
    · subst h1
      simp [updateA, lookupA, Ne.symm h]
    · simp [updateA, h1, lookupA, ih]

theorem lookupA_updateA_self (m : List (String × α)) (k : String) (v : α)
    (h : (lookupA m k).isSome = true) :
    lookupA (updateA m k v) k = some v := by
  induction m with
  | nil => simp [lookupA] at h
  | cons kv rest ih =>
    obtain ⟨k1, v1⟩ := kv
    by_cases h1 : k1 = k
    · simp [updateA, h1, lookupA]
    · simp [lookupA, h1] at h
      simp [updateA, h1, lookupA, ih h]

theorem setOpt_names (p : Parser) (tok : String) (o : POpt) :
    (setOpt p tok o).names_ = p.names_ := by
  unfold setOpt
  cases lookupA p.names_ tok <;> rfl

theorem parseFlag_ok_names (p p2 : Parser) (tok : String)
    (h : parseFlag p tok = .ok p2) : p2.names_ = p.names_ := by
  unfold parseFlag at h
  cases hgo : getOptionQ p tok with
  | none => simp [hgo] at h
  | some o =>
    cases o with
    | flag o =>
      simp only [hgo] at h
      cases hsv : setValueSame o (flagNewValue o) with
      | error eo => simp [hsv] at h
      | ok o2 =>
        simp [hsv] at h
        rw [← h, setOpt_names]
    | single o => simp [hgo] at h
    | compound o => simp [hgo] at h

-- Step equations for the scan loop.

theorem scan_nil (p : Parser) : scan p [] = .ok p := by simp [scan]

theorem scan_cons_unreg (p : Parser) (tok : String) (rest : List String)
    (h : hasOption p tok = false) :
    scan p (tok :: rest) = .error (.parsing "Invalid arguments provided!", p) := by
  simp [scan, h]

theorem scan_cons_flag (p : Parser) (tok : String) (rest : List String)
    (o : BaseOption Bool Bool) (h1 : hasOption p tok = true)
    (h2 : getOptionQ p tok = some (.flag o)) :
    scan p (tok :: rest) =
      match parseFlag p tok with
      | .error ep => .error ep
      | .ok p2 => scan p2 rest := by
  simp [scan, h1, h2]

theorem scan_cons_single_nil (p : Parser) (tok : String)
    (o : BaseOption String String) (h1 : hasOption p tok = true)
    (h2 : getOptionQ p tok = some (.single o)) :
    scan p [tok] = .error (.parsing ("After the " ++ tok ++
      " option should be an extra argument!"), p) := by
  simp [scan, h1, h2]

theorem scan_cons_single_reg (p : Parser) (tok arg : String)
    (rest2 : List String) (o : BaseOption String String)
    (h1 : hasOption p tok = true) (h2 : getOptionQ p tok = some (.single o))
    (h3 : hasOption p arg = true) :
    scan p (tok :: arg :: rest2) = .error (.parsing ("After the " ++ tok ++
      " option should be an extra argument!"), p) := by
  simp [scan, h1, h2, h3]

theorem scan_cons_single_ok (p : Parser) (tok arg : String)
    (rest2 : List String) (o : BaseOption String String)
    (h1 : hasOption p tok = true) (h2 : getOptionQ p tok = some (.single o))
    (h3 : hasOption p arg = false) :
    scan p (tok :: arg :: rest2) =
      match setValueSame o arg with
      | .error (e, o2) => .error (e, setOpt p tok (.single o2))
      | .ok o2 => scan (setOpt p tok (.single o2)) rest2 := by
  simp [scan, h1, h2, h3]

theorem scan_cons_compound_zero (p : Parser) (tok : String)
    (rest : List String) (o : BaseOption (List String) (List String))
    (h1 : hasOption p tok = true)
    (h2 : getOptionQ p tok = some (.compound o))
    (h3 : (rest.takeWhile (fun t => !hasOption p t)).length = 0) :
    scan p (tok :: rest) = .error (.parsing ("After the " ++ tok ++
      " option should be at least an extra argument!"), p) := by
  simp [scan, h1, h2, h3]

theorem scan_cons_compound (p : Parser) (tok : String) (rest : List String)
    (o : BaseOption (List String) (List String))
    (h1 : hasOption p tok = true)
    (h2 : getOptionQ p tok = some (.compound o))
    (h3 : (rest.takeWhile (fun t => !hasOption p t)).length ≠ 0) :
    scan p (tok :: rest) =
      match setValueSame o (rest.takeWhile (fun t => !hasOption p t)) with
      | .error (e, o2) => .error (e, setOpt p tok (.compound o2))
      | .ok o2 => scan (setOpt p tok (.compound o2))
          (rest.drop (rest.takeWhile (fun t => !hasOption p t)).length) := by
  simp [scan, h1, h2, h3]

theorem drop_length_takeWhile (P : α → Bool) (l : List α) :
    l.drop (l.takeWhile P).length = l.dropWhile P := by
  induction l with
  | nil => rfl
  | cons a l ih =>
    by_cases h : P a
    · simp [List.takeWhile_cons, List.dropWhile_cons, h, ih]
    · simp [List.takeWhile_cons, List.dropWhile_cons, h]

theorem head_dropWhile_false (P : α → Bool) (l : List α) (a : α)
    (h : (l.dropWhile P).head? = some a) : P a = false := by
  induction l with
  | nil => simp [List.dropWhile] at h
  | cons b l ih =>
    by_cases hb : P b
    · simp [List.dropWhile_cons, hb] at h
      exact ih h
    · simp [List.dropWhile_cons, hb] at h
      rw [← h]
      simp [hb]

theorem mem_drop_takeWhile (P : α → Bool) (l : List α) (a : α)
    (hmem : a ∈ l) (ha : P a = false) :
    a ∈ l.drop (l.takeWhile P).length := by
  rw [drop_length_takeWhile]
  have hsplit : l.takeWhile P ++ l.dropWhile P = l :=
    List.takeWhile_append_dropWhile P l
  rw [← hsplit] at hmem
  rcases List.mem_append.mp hmem with h1 | h2
  · have := List.mem_takeWhile_imp h1
    rw [ha] at this
    exact absurd this (by simp)
  · exact h2

theorem scan_ok_names : ∀ (n : Nat) (toks : List String) (p p2 : Parser),
    toks.length ≤ n → scan p toks = .ok p2 → p2.names_ = p.names_ := by
  intro n
  induction n with
  | zero =>
    intro toks p p2 hlen hscan
    rw [List.length_eq_zero.mp (Nat.le_zero.mp hlen)] at hscan
    rw [scan_nil] at hscan
    cases hscan
    rfl
  | succ n ih =>
    intro toks p p2 hlen hscan
    match toks with
    | [] =>
      rw [scan_nil] at hscan
      cases hscan
      rfl
    | tok :: rest =>
      have hrest : rest.length ≤ n := by
        simp only [List.length_cons] at hlen
        omega
      cases hop : hasOption p tok with
      | false => rw [scan_cons_unreg p tok rest hop] at hscan; cases hscan
      | true =>
        cases hgo : getOptionQ p tok with
        | none => simp [scan, hop, hgo] at hscan
        | some o =>
          cases o with
          | flag o =>
            rw [scan_cons_flag p tok rest o hop hgo] at hscan
            cases hpf : parseFlag p tok with
            | error ep => rw [hpf] at hscan; cases hscan
            | ok p3 =>
              rw [hpf] at hscan
              simp only at hscan
              rw [ih rest p3 p2 hrest hscan]
              exact parseFlag_ok_names p p3 tok hpf
          | single o =>
            match rest, hrest with
            | [], _ =>
              rw [scan_cons_single_nil p tok o hop hgo] at hscan
              cases hscan
            | arg :: rest2, hrest =>
              cases harg : hasOption p arg with
              | true =>
                rw [scan_cons_single_reg p tok arg rest2 o hop hgo harg]
                  at hscan
                cases hscan
              | false =>
                rw [scan_cons_single_ok p tok arg rest2 o hop hgo harg]
                  at hscan
                cases hsv : setValueSame o arg with
                | error eo =>
                  rw [hsv] at hscan
                  obtain ⟨e1, o2⟩ := eo
                  cases hscan
                | ok o2 =>
                  rw [hsv] at hscan
                  simp only at hscan
                  rw [ih rest2 _ p2 (by simp at hrest; omega) hscan]
                  exact setOpt_names p tok (.single o2)
          | compound o =>
            by_cases hz :
              (rest.takeWhile (fun t => !hasOption p t)).length = 0
            · rw [scan_cons_compound_zero p tok rest o hop hgo hz] at hscan
              cases hscan
            · rw [scan_cons_compound p tok rest o hop hgo hz] at hscan
              cases hsv :
                setValueSame o (rest.takeWhile (fun t => !hasOption p t)) with
              | error eo =>
                rw [hsv] at hscan
                obtain ⟨e1, o2⟩ := eo
                cases hscan
              | ok o2 =>
                rw [hsv] at hscan
                simp only at hscan
                have hdrop :
                    (rest.drop
                      (rest.takeWhile (fun t => !hasOption p t)).length).length
                      ≤ n := by
                  simp only [List.length_drop]
                  omega
                rw [ih _ _ p2 hdrop hscan]
                exact setOpt_names p tok (.compound o2)

theorem getOptionQ_some_hasOption (p : Parser) (tok : String) (o : POpt)
    (h : getOptionQ p tok = some o) : hasOption p tok = true := by
  unfold getOptionQ at h
  unfold hasOption
  cases hl : lookupA p.names_ tok with
  | none => rw [hl] at h; cases h
  | some r => rfl

-- ------------------------------------------------------------------
-- Claim C8
-- ------------------------------------------------------------------

/-- Claim C8: a freshly constructed option is required; after a single
`addDefaultValue(v)` call (and nothing else) it reports `isRequired() =
false` and `hasDefaultValue() = true`. -/
theorem default_implies_optional (V T : Type) [Inhabited V]
    (name : String) (extra_names : List String) (v : V) :
    (mkBaseOption V T name extra_names).isRequired = true ∧
    ((mkBaseOption V T name extra_names).addDefaultValue v).isRequired
      = false ∧
    ((mkBaseOption V T name extra_names).addDefaultValue v).hasDefaultValue
      = true :=
  ⟨rfl, rfl, rfl⟩

-- ------------------------------------------------------------------
-- Claim C10
-- ------------------------------------------------------------------

/-- Claim C10: `addDefaultValue(v)` stores `v` and `getDefaultValue` /
`getValue` return it, with no constraint evaluated anywhere on the path: the
statement quantifies over options with arbitrary constraint lists and has no
constraint-satisfaction hypothesis. -/
theorem default_value_bypasses_constraints (V T : Type) [Inhabited V]
    (o : BaseOption V T) (v : V) (h : o.has_value_ = false) :
    (o.addDefaultValue v).getDefaultValue = .ok v ∧
    (o.addDefaultValue v).getValue = .ok v := by
  constructor
  · simp [BaseOption.addDefaultValue, BaseOption.beRequired,
          BaseOption.getDefaultValue]
  · simp [BaseOption.addDefaultValue, BaseOption.beRequired,
          BaseOption.getValue, BaseOption.getDefaultValue, h]

/-- The option of the repository test `ConstraintShouldNotAffectDefaultValue`:
one constraint `value > 1000000` that the default `20` violates. -/
def c10Opt : BaseOption Int Int :=
  (mkBaseOption Int Int "name" []).addConstraintValue
    (fun v => decide (v > 1000000)) "Value must be 0"

/-- Witness for C10 at the repository test's input: the default `20` violates
the registered constraint yet is stored and returned. -/
theorem default_value_bypasses_constraints_witness :
    (c10Opt.addDefaultValue 20).getDefaultValue = .ok 20 ∧
    (c10Opt.addDefaultValue 20).getValue = .ok 20 ∧
    checkConstraints (20 : Int) c10Opt.constraints_ =
      .error (.parsing "Value must be 0") :=
  ⟨(default_value_bypasses_constraints Int Int c10Opt 20 rfl).1,
   (default_value_bypasses_constraints Int Int c10Opt 20 rfl).2,
   rfl⟩

-- ------------------------------------------------------------------
-- Claim C9
-- ------------------------------------------------------------------

/-- Claim C9: a single option with no transformation stores a constraint-
passing string unchanged: `setValue(s)` then `getValue` yields `s`. -/
theorem single_no_transformation_roundtrip
    (o : BaseOption String String) (s : String)
    (ht : o.transformation_ = none)
    (hc : checkConstraints s o.constraints_ = .ok ())
    (hcr : checkConstraints s o.constraints_before_transformation_ = .ok ()) :
    ∃ o2, setValueSame o s = .ok o2 ∧ o2.getValue = .ok s := by
  refine ⟨{ o with value_ := s, has_value_ := true }, ?_, ?_⟩
  · simp [setValueSame, hc]
  · simp [BaseOption.getValue]

/-- The single option of the witness for C9: one length constraint that the
input satisfies. -/
def c9Opt : BaseOption String String :=
  ({ mkBaseOption String String "-s" ["--single"] with
     argument_name_ := " value" }).addConstraintValue
    (fun s => decide (s.length < 10)) "too long"

/-- Witness for C9 at a concrete input. -/
theorem single_no_transformation_roundtrip_witness :
    ∃ o2, setValueSame c9Opt "value" = .ok o2 ∧ o2.getValue = .ok "value" :=
  single_no_transformation_roundtrip c9Opt "value" rfl rfl rfl

-- ------------------------------------------------------------------
-- Claim C2
-- ------------------------------------------------------------------

/-- The option of the repository test `ShouldNotTransformValueIfTypesMatch`:
stored type and raw type are both `std::string` and a transformation is
configured. -/
def c2SameOpt : BaseOption String String :=
  (mkBaseOption String String "name" []).addTransformation (fun s => s ++ "!")

/-- Claim C2 counterexample: with `ValueType = TransformationType`, a
configured transformation is NOT applied — `setValue` stores the raw input
itself, so the stored value differs from the transformed one. -/
theorem setValue_same_type_skips_transformation_cex :
    c2SameOpt.transformation_ = some (fun s => s ++ "!") ∧
    (∃ o2, setValueSame c2SameOpt "lowercase" = .ok o2 ∧
      o2.value_ = "lowercase" ∧ o2.getValue = .ok "lowercase") ∧
    ("lowercase" ++ "!") ≠ "lowercase" :=
  ⟨rfl, ⟨_, rfl, rfl, rfl⟩, by decide⟩

/-- Claim C2 (amended): `setValue` routes the raw input through the
transformation only in the `ValueType ≠ TransformationType` instantiation;
when the types are equal the raw input is stored directly, any configured
transformation unused; when the types differ and no transformation is
configured, `setValue` fails with
`std::invalid_argument("No transformation function provided.")`. -/
theorem setValue_transformation_routing (V T : Type) :
    (∀ (o : BaseOption V V) (raw : V),
      checkConstraints raw o.constraints_ = .ok () →
      ∃ o2, setValueSame o raw = .ok o2 ∧ o2.value_ = raw ∧
        o2.has_value_ = true) ∧
    (∀ (o : BaseOption V T) (f : T → V) (raw : T),
      o.transformation_ = some f →
      checkConstraints raw o.constraints_before_transformation_ = .ok () →
      checkConstraints (f raw) o.constraints_ = .ok () →
      ∃ o2, setValueDiff o raw = .ok o2 ∧ o2.value_ = f raw ∧
        o2.has_value_ = true) ∧
    (∀ (o : BaseOption V T) (raw : T),
      o.transformation_ = none →
      setValueDiff o raw =
        .error (.invalidArgument "No transformation function provided.", o)) := by
  refine ⟨?_, ?_, ?_⟩
  · intro o raw hc
    exact ⟨{ o with value_ := raw, has_value_ := true },
      by simp [setValueSame, hc], rfl, rfl⟩
  · intro o f raw hf hcr hc
    refine ⟨{ o with value_ := f raw, has_value_ := true }, ?_, rfl, rfl⟩
    simp [setValueDiff, hf, hcr, hc]
  · intro o raw hf
    simp [setValueDiff, hf]

/-- The option of the repository test `ShouldTransformValueIfTypesDontMatch`:
stores a `Nat` computed from the raw string. -/
def c2DiffOpt : BaseOption Nat String :=
  (mkBaseOption Nat String "name" []).addTransformation
    (fun s => s.length)

/-- An option with distinct stored/raw types and no transformation. -/
def c2NoTransOpt : BaseOption Nat String := mkBaseOption Nat String "name" []

/-- Witness for the amended C2 at concrete inputs: the three routing cases. -/
theorem setValue_transformation_routing_witness :
    (∃ o2, setValueSame c2SameOpt "abc" = .ok o2 ∧ o2.value_ = "abc" ∧
      o2.has_value_ = true) ∧
    (∃ o2, setValueDiff c2DiffOpt "1234" = .ok o2 ∧
      o2.value_ = (fun s : String => s.length) "1234" ∧
      o2.has_value_ = true) ∧
    setValueDiff c2NoTransOpt "1234" =
      .error (.invalidArgument "No transformation function provided.",
              c2NoTransOpt) :=
  ⟨(setValue_transformation_routing String String).1 c2SameOpt "abc" rfl,
   (setValue_transformation_routing Nat String).2.1 c2DiffOpt
     (fun s => s.length) "1234" rfl rfl rfl,
   (setValue_transformation_routing Nat String).2.2 c2NoTransOpt "1234" rfl⟩

-- ------------------------------------------------------------------
-- Claim C1
-- ------------------------------------------------------------------

theorem registerNames_fails (ref : String) :
    ∀ (names : List String) (m : List (String × String)),
    (∃ a ∈ names, (lookupA m a).isSome = true) →
    ∃ m2, registerNames ref names m =
        .error (.invalidArgument "Option already exists!", m2) ∧
      (∀ k, (lookupA m k).isSome = true → lookupA m2 k = lookupA m k) ∧
      (∀ k, lookupA m2 k ≠ lookupA m k →
         k ∈ names ∧ lookupA m2 k = some ref) := by
  intro names
  induction names with
  | nil =>
    rintro m ⟨a, ha, _⟩
    cases ha
  | cons n rest ih =>
    rintro m ⟨a, ha, hsome⟩
    by_cases hn : (lookupA m n).isSome = true
    · refine ⟨m, by simp [registerNames, hn], fun k _ => rfl,
        fun k hk => absurd rfl hk⟩
    · have hane : a ≠ n := by
        rintro rfl
        exact hn hsome
      have ha2 : a ∈ rest := List.mem_of_ne_of_mem hane ha
      obtain ⟨m2, heq, hpres, hnew⟩ := ih (insertA m n ref)
        ⟨a, ha2, by rw [lookupA_insertA_ne m n a ref hane]; exact hsome⟩
      refine ⟨m2, by simp [registerNames, hn, heq], ?_, ?_⟩
      · intro k hk
        have hkn : k ≠ n := by
          rintro rfl
          exact hn hk
        rw [hpres k (by rw [lookupA_insertA_ne m n k ref hkn]; exact hk),
            lookupA_insertA_ne m n k ref hkn]
      · intro k hk
        by_cases hkn : k = n
        · subst hkn
          refine ⟨List.mem_cons_self k rest, ?_⟩
          rw [hpres k (by rw [lookupA_insertA_self]; rfl),
              lookupA_insertA_self]
        · by_cases hch : lookupA m2 k = lookupA (insertA m n ref) k
          · rw [hch, lookupA_insertA_ne m n k ref hkn] at hk
            exact absurd rfl hk
          · obtain ⟨hmem, hval⟩ := hnew k hch
            exact ⟨List.mem_cons_of_mem n hmem, hval⟩

/-- Claim C1 (amended): when any alias of the new option is already
registered, `addOption` throws `std::invalid_argument("Option already
exists!")`; the `options_` map and every pre-existing alias binding are
untouched, but aliases of the new option processed before the collision stay
bound in the alias map (any new binding points at the new option's primary
name) — partial mutation of the alias registry. -/
theorem addOption_duplicate_rejection (p : Parser) (opt : POpt) (a : String)
    (ha : a ∈ opt.names) (hdup : hasOption p a = true) :
    ∃ m2, addOption p opt =
        .error (.invalidArgument "Option already exists!",
                { options_ := p.options_, names_ := m2 }) ∧
      (∀ k, (lookupA p.names_ k).isSome = true →
        lookupA m2 k = lookupA p.names_ k) ∧
      (∀ k, lookupA m2 k ≠ lookupA p.names_ k →
        k ∈ opt.names ∧ lookupA m2 k = some (opt.names.headD "")) := by
  obtain ⟨m2, heq, hpres, hnew⟩ := registerNames_fails (opt.names.headD "")
    opt.names p.names_ ⟨a, ha, hdup⟩
  refine ⟨m2, ?_, hpres, hnew⟩
  simp only [addOption]
  rw [heq]

/-- The parser that already registered `-a`. -/
def c1ParserA : Parser :=
  { options_ := [("-a", mkFlagOption "-a" [])], names_ := [("-a", "-a")] }

/-- Claim C1 counterexample: registering a single option with aliases
`{-b, -a}` into a parser that already has `-a` fails with "Option already
exists!", yet afterwards the alias `-b` — absent before the call — is bound
in the registry: the registry is NOT exactly as it was before the call. -/
theorem addOption_partial_mutation_cex :
    addOption emptyParser (mkFlagOption "-a" []) = .ok c1ParserA ∧
    hasOption c1ParserA "-b" = false ∧
    (∃ p2, addOption c1ParserA (mkSingleOption "-b" ["-a"]) =
      .error (.invalidArgument "Option already exists!", p2) ∧
      hasOption p2 "-b" = true ∧ p2.options_ = c1ParserA.options_) :=
  ⟨rfl, rfl, ⟨_, rfl, rfl, rfl⟩⟩

/-- Witness for the amended C1 at a concrete input: adding `{-b, -a}` to a
parser already holding `-a`. -/
theorem addOption_duplicate_rejection_witness :
    ∃ m2, addOption c1ParserA (mkSingleOption "-b" ["-a"]) =
        .error (.invalidArgument "Option already exists!",
                { options_ := c1ParserA.options_, names_ := m2 }) ∧
      (∀ k, (lookupA c1ParserA.names_ k).isSome = true →
        lookupA m2 k = lookupA c1ParserA.names_ k) ∧
      (∀ k, lookupA m2 k ≠ lookupA c1ParserA.names_ k →
        k ∈ (mkSingleOption "-b" ["-a"]).names ∧
        lookupA m2 k = some ((mkSingleOption "-b" ["-a"]).names.headD "")) :=
  addOption_duplicate_rejection c1ParserA (mkSingleOption "-b" ["-a"]) "-a"
    (by simp [mkSingleOption, mkBaseOption, POpt.names]) rfl

-- ------------------------------------------------------------------
-- Claim C3
-- ------------------------------------------------------------------

/-- Claim C3: when a scan step meets a token owned by a flag option, the
flag's stored value becomes the logical negation of its default value when a
default exists, and `true` otherwise, and scanning proceeds on the remaining
tokens with only that option updated. -/
theorem flag_presence_negates_default (p : Parser) (tok : String)
    (rest : List String) (o : BaseOption Bool Bool)
    (h : getOptionQ p tok = some (.flag o))
    (hc : checkConstraints (flagNewValue o) o.constraints_ = .ok ()) :
    ∃ o2, scan p (tok :: rest) = scan (setOpt p tok (.flag o2)) rest ∧
      o2.has_value_ = true ∧
      o2.value_ = (if o.hasDefaultValue then !o.default_value_ else true) := by
  have h1 := getOptionQ_some_hasOption p tok _ h
  refine ⟨{ o with value_ := flagNewValue o, has_value_ := true }, ?_, rfl, rfl⟩
  rw [scan_cons_flag p tok rest o h1 h]
  have hpf : parseFlag p tok = .ok (setOpt p tok (.flag
      { o with value_ := flagNewValue o, has_value_ := true })) := by
    simp [parseFlag, h, setValueSame, hc]
  rw [hpf]

/-- The flag of the repository test `GetsDefaultOptionNegated`: default
value `true`. -/
def c3Flag : BaseOption Bool Bool :=
  (mkBaseOption Bool Bool "-v" ["--verbose"]).addDefaultValue true

/-- A parser holding only the defaulted flag. -/
def c3Parser : Parser :=
  { options_ := [("-v", POpt.flag c3Flag)],
    names_ := [("-v", "-v"), ("--verbose", "-v")] }

/-- Witness for C3: the scan-step theorem at a concrete flag with default
`true`, plus the full-parse check that the read-back value is `false`. -/
theorem flag_presence_negates_default_witness :
    (∃ o2, scan c3Parser ["-v"] = scan (setOpt c3Parser "-v" (.flag o2)) [] ∧
      o2.has_value_ = true ∧
      o2.value_ =
        (if c3Flag.hasDefaultValue then !c3Flag.default_value_ else true)) ∧
    (parse c3Parser ["prog", "--verbose"]).map
      (fun p2 => getValueBool p2 "-v") = .ok (.ok false) := by
  refine ⟨flag_presence_negates_default c3Parser "-v" [] c3Flag rfl rfl, ?_⟩
  simp [parse, scan, parseFlag, flagNewValue, setValueSame, checkConstraints,
        setOpt, updateA, getOptionQ, hasOption, lookupA, checkHelpOption,
        checkMissingOptions, firstMissing, getValueBool, c3Parser, c3Flag,
        POpt.isRequired, POpt.hasValue, POpt.hasDefaultValue,
        BaseOption.isRequired, BaseOption.hasValue, BaseOption.hasDefaultValue,
        BaseOption.getValue, BaseOption.getDefaultValue,
        BaseOption.addDefaultValue, BaseOption.beRequired, mkBaseOption,
        Except.map]

-- ------------------------------------------------------------------
-- Claim C7
-- ------------------------------------------------------------------

/-- Claim C7: a single option whose token is last, or is followed by a
registered option name, makes the scan — and the whole parse when the token
follows the program name — fail with exactly
`"After the " + token + " option should be an extra argument!"`. -/
theorem single_missing_argument_error (p : Parser) (tok : String)
    (rest : List String) (o : BaseOption String String)
    (h : getOptionQ p tok = some (.single o))
    (hnext : rest = [] ∨
      ∃ arg rest2, rest = arg :: rest2 ∧ hasOption p arg = true) :
    scan p (tok :: rest) = .error (.parsing ("After the " ++ tok ++
      " option should be an extra argument!"), p) ∧
    ∀ prog : String, parse p (prog :: tok :: rest) =
      .error (.parsing ("After the " ++ tok ++
        " option should be an extra argument!"), p) := by
  have h1 := getOptionQ_some_hasOption p tok _ h
  have hscan : scan p (tok :: rest) = .error (.parsing ("After the " ++ tok ++
      " option should be an extra argument!"), p) := by
    rcases hnext with rfl | ⟨arg, rest2, rfl, harg⟩
    · exact scan_cons_single_nil p tok o h1 h
    · exact scan_cons_single_reg p tok arg rest2 o h1 h harg
  refine ⟨hscan, fun prog => ?_⟩
  simp [parse, hscan]

/-- The parser of the repository test `ThrowsErrorExpectingSingleOptionArgument`. -/
def spParser : Parser :=
  { options_ := [("-s", mkSingleOption "-s" ["--single"])],
    names_ := [("-s", "-s"), ("--single", "-s")] }

/-- Witness for C7 at the spec's concrete scenario
`["prog", "--single"]`. -/
theorem single_missing_argument_error_witness :
    scan spParser ["--single"] =
      .error (.parsing "After the --single option should be an extra argument!",
              spParser) ∧
    parse spParser ["prog", "--single"] =
      .error (.parsing "After the --single option should be an extra argument!",
              spParser) := by
  have happ := single_missing_argument_error spParser "--single" [] _ rfl
    (Or.inl rfl)
  exact ⟨happ.1, happ.2 "prog"⟩

-- ------------------------------------------------------------------
-- Claim C4
-- ------------------------------------------------------------------

/-- Claim C4: a compound option collects as its value exactly the consecutive
following tokens that are not registered option names; the stopping token is
not included and scanning resumes exactly at it. -/
theorem compound_greedy_until_next_option (p : Parser) (tok : String)
    (rest : List String) (o : BaseOption (List String) (List String))
    (h : getOptionQ p tok = some (.compound o))
    (hne : (rest.takeWhile (fun t => !hasOption p t)).length ≠ 0)
    (hc : checkConstraints (rest.takeWhile (fun t => !hasOption p t))
      o.constraints_ = .ok ()) :
    ∃ o2, scan p (tok :: rest) =
        scan (setOpt p tok (.compound o2))
          (rest.drop (rest.takeWhile (fun t => !hasOption p t)).length) ∧
      o2.value_ = rest.takeWhile (fun t => !hasOption p t) ∧
      o2.has_value_ = true ∧
      (∀ t ∈ o2.value_, hasOption p t = false) ∧
      (∀ t, (rest.drop o2.value_.length).head? = some t →
        hasOption p t = true) := by
  have h1 := getOptionQ_some_hasOption p tok _ h
  refine ⟨{ o with value_ := rest.takeWhile (fun t => !hasOption p t), has_value_ := true }, ?_, rfl, rfl, ?_, ?_⟩
  · rw [scan_cons_compound p tok rest o h1 h hne]
    simp [setValueSame, hc]
  · intro t ht
    have ht2 : t ∈ rest.takeWhile (fun t => !hasOption p t) := ht
    have := List.mem_takeWhile_imp ht2
    simpa using this
  · intro t ht
    have ht2 : (rest.drop
        (rest.takeWhile (fun t => !hasOption p t)).length).head? = some t := ht
    rw [drop_length_takeWhile] at ht2
    have := head_dropWhile_false (fun t => !hasOption p t) rest t ht2
    simpa using this

/-- The parser of the spec example: compound `-c` and flag `-d`. -/
def cdParser : Parser :=
  { options_ := [("-c", mkCompoundOption "-c" ["--compound"]),
                 ("-d", mkFlagOption "-d" [])],
    names_ := [("-c", "-c"), ("--compound", "-c"), ("-d", "-d")] }

/-- Witness for C4 at the spec example `["prog", "-c", "a", "b", "-d"]`: the
compound greedily takes `["a", "b"]`, stops at the registered `-d`, and after
the full parse `-c` holds `["a", "b"]` while the flag `-d` was parsed
to `true`. -/
theorem compound_greedy_until_next_option_witness :
    (∃ o2, scan cdParser ["-c", "a", "b", "-d"] =
        scan (setOpt cdParser "-c" (.compound o2))
          ((["a", "b", "-d"]).drop
            ((["a", "b", "-d"]).takeWhile
              (fun t => !hasOption cdParser t)).length) ∧
      o2.value_ =
        (["a", "b", "-d"]).takeWhile (fun t => !hasOption cdParser t) ∧
      o2.has_value_ = true ∧
      (∀ t ∈ o2.value_, hasOption cdParser t = false) ∧
      (∀ t, ((["a", "b", "-d"]).drop o2.value_.length).head? = some t →
        hasOption cdParser t = true)) ∧
    (["a", "b", "-d"]).takeWhile (fun t => !hasOption cdParser t) =
      ["a", "b"] ∧
    (parse cdParser ["prog", "-c", "a", "b", "-d"]).map
      (fun p2 => (getValueStrings p2 "-c", getValueBool p2 "-d")) =
      .ok (.ok ["a", "b"], .ok true) := by
  refine ⟨compound_greedy_until_next_option cdParser "-c" ["a", "b", "-d"] _
    rfl (by decide) rfl, by decide, ?_⟩
  simp [parse, scan, parseFlag, flagNewValue, setValueSame, checkConstraints,
        setOpt, updateA, getOptionQ, hasOption, lookupA, checkHelpOption,
        checkMissingOptions, firstMissing, getValueStrings, getValueBool,
        cdParser, POpt.isRequired, POpt.hasValue, POpt.hasDefaultValue,
        BaseOption.isRequired, BaseOption.hasValue, BaseOption.hasDefaultValue,
        BaseOption.getValue, BaseOption.getDefaultValue, mkBaseOption,
        mkFlagOption, mkCompoundOption, Except.map, List.takeWhile, List.drop]

-- ------------------------------------------------------------------
-- Claim C5
-- ------------------------------------------------------------------

theorem firstMissing_of_exists : ∀ (l : List (String × POpt)),
    (∃ kv ∈ l, kv.2.isRequired = true ∧ kv.2.hasValue = false ∧
      kv.2.hasDefaultValue = false) →
    ∃ kv2, firstMissing l = some kv2 ∧ kv2 ∈ l ∧ kv2.2.isRequired = true ∧
      kv2.2.hasValue = false ∧ kv2.2.hasDefaultValue = false := by
  intro l
  induction l with
  | nil =>
    rintro ⟨kv, hmem, _⟩
    cases hmem
  | cons kv0 rest ih =>
    rintro ⟨kv, hmem, hbad⟩
    by_cases h0 : (kv0.2.isRequired && !kv0.2.hasValue &&
        !kv0.2.hasDefaultValue) = true
    · have hb := h0
      simp only [Bool.and_eq_true, Bool.not_eq_true'] at hb
      exact ⟨kv0, by simp [firstMissing, h0], List.mem_cons_self kv0 rest,
        hb.1.1, hb.1.2, hb.2⟩
    · have hkv : kv ∈ rest := by
        rcases List.mem_cons.mp hmem with heq | hm
        · rw [heq] at hbad
          exact absurd (by simp [hbad.1, hbad.2.1, hbad.2.2]) h0
        · exact hm
      obtain ⟨kv2, heq, hm2, b1, b2, b3⟩ := ih ⟨kv, hkv, hbad⟩
      exact ⟨kv2, by simp [firstMissing, h0, heq],
        List.mem_cons_of_mem kv0 hm2, b1, b2, b3⟩

/-- Claim C5: when the scan succeeds, the help check passes, and some
registered option is required with neither a value nor a default, `parse`
fails with `"Missing option "` followed by such an option's primary name. -/
theorem missing_required_option_error (p : Parser) (argv : List String)
    (p2 : Parser) (hscan : scan p (argv.drop 1) = .ok p2)
    (hhelp : checkHelpOption p2 = .ok ())
    (hmiss : ∃ kv ∈ p2.options_, kv.2.isRequired = true ∧
      kv.2.hasValue = false ∧ kv.2.hasDefaultValue = false) :
    ∃ kv2 ∈ p2.options_, kv2.2.isRequired = true ∧ kv2.2.hasValue = false ∧
      kv2.2.hasDefaultValue = false ∧
      parse p argv =
        .error (.parsing ("Missing option " ++ kv2.2.primaryName), p2) := by
  obtain ⟨kv2, heq, hm2, b1, b2, b3⟩ := firstMissing_of_exists p2.options_ hmiss
  refine ⟨kv2, hm2, b1, b2, b3, ?_⟩
  have hscan2 : scan p argv.tail = .ok p2 := by
    rw [← List.drop_one]
    exact hscan
  simp [parse, hscan2, hhelp, checkMissingOptions, heq]

/-- Witness for C5 at the spec scenario: one required single option, argument
vector holding only the program name. -/
theorem missing_required_option_error_witness :
    (∃ kv2 ∈ spParser.options_, kv2.2.isRequired = true ∧
      kv2.2.hasValue = false ∧ kv2.2.hasDefaultValue = false ∧
      parse spParser ["prog"] =
        .error (.parsing ("Missing option " ++ kv2.2.primaryName), spParser)) ∧
    parse spParser ["prog"] =
      .error (.parsing "Missing option -s", spParser) := by
  constructor
  · exact missing_required_option_error spParser ["prog"] spParser
      (scan_nil spParser) rfl
      ⟨("-s", mkSingleOption "-s" ["--single"]), by simp [spParser], rfl, rfl,
       rfl⟩
  · simp [parse, scan, checkHelpOption, hasOption, lookupA,
          checkMissingOptions, firstMissing, spParser, POpt.isRequired,
          POpt.hasValue, POpt.hasDefaultValue, POpt.primaryName, POpt.names,
          BaseOption.isRequired, BaseOption.hasValue,
          BaseOption.hasDefaultValue, mkBaseOption, mkSingleOption]

-- ------------------------------------------------------------------
-- Claim C6
-- ------------------------------------------------------------------

/-- The state of a help-style flag registered under reference name `r`:
a flag alternative with default `false` and no constraints; when `withValue`
it has been set to `true`. -/
def helpFlagAt (p : Parser) (r : String) (withValue : Bool) : Prop :=
  ∃ o : BaseOption Bool Bool, lookupA p.options_ r = some (.flag o) ∧
    o.has_default_value_ = true ∧ o.default_value_ = false ∧
    o.constraints_ = [] ∧
    (withValue = true → o.has_value_ = true ∧ o.value_ = true)

theorem helpFlagAt_setOpt_ne (p : Parser) (r tok : String) (o : POpt)
    (seen : Bool) (hr : lookupA p.names_ tok ≠ some r)
    (hinv : helpFlagAt p r seen) : helpFlagAt (setOpt p tok o) r seen := by
  obtain ⟨oo, h1, h2, h3, h4, h5⟩ := hinv
  cases hl : lookupA p.names_ tok with
  | none =>
    refine ⟨oo, ?_, h2, h3, h4, h5⟩
    simp only [setOpt, hl]
    exact h1
  | some r0 =>
    have hne : r ≠ r0 := by
      rintro rfl
      exact hr hl
    refine ⟨oo, ?_, h2, h3, h4, h5⟩
    simp only [setOpt, hl]
    rw [lookupA_updateA_ne p.options_ r0 r o hne]
    exact h1

theorem parseFlag_ok_shape (p p3 : Parser) (tok : String)
    (h : parseFlag p tok = .ok p3) : ∃ o2, p3 = setOpt p tok (.flag o2) := by
  unfold parseFlag at h
  cases hgo : getOptionQ p tok with
  | none => rw [hgo] at h; cases h
  | some o =>
    cases o with
    | flag o =>
      rw [hgo] at h
      simp only at h
      cases hsv : setValueSame o (flagNewValue o) with
      | error eo =>
        obtain ⟨e1, o2⟩ := eo
        rw [hsv] at h
        cases h
      | ok o2 =>
        rw [hsv] at h
        simp only [Except.ok.injEq] at h
        exact ⟨o2, h.symm⟩
    | single o => rw [hgo] at h; simp only at h; cases h
    | compound o => rw [hgo] at h; simp only at h; cases h

theorem scan_helpFlag (r : String) : ∀ (n : Nat) (toks : List String)
    (p p2 : Parser) (seen : Bool), toks.length ≤ n →
    scan p toks = .ok p2 → helpFlagAt p r seen →
    (seen = true ∨ ∃ a ∈ toks, lookupA p.names_ a = some r) →
    helpFlagAt p2 r true := by
  intro n
  induction n with
  | zero =>
    intro toks p p2 seen hlen hscan hinv hseen
    rw [List.length_eq_zero.mp (Nat.le_zero.mp hlen)] at hscan hseen
    rw [scan_nil] at hscan
    cases hscan
    rcases hseen with hs | ⟨a, ha, _⟩
    · obtain ⟨oo, h1, h2, h3, h4, h5⟩ := hinv
      exact ⟨oo, h1, h2, h3, h4, fun _ => h5 hs⟩
    · cases ha
  | succ n ih =>
    intro toks p p2 seen hlen hscan hinv hseen
    match toks with
    | [] =>
      rw [scan_nil] at hscan
      cases hscan
      rcases hseen with hs | ⟨a, ha, _⟩
      · obtain ⟨oo, h1, h2, h3, h4, h5⟩ := hinv
        exact ⟨oo, h1, h2, h3, h4, fun _ => h5 hs⟩
      · cases ha
    | tok :: rest =>
      have hrest : rest.length ≤ n := by
        simp only [List.length_cons] at hlen
        omega
      cases hop : hasOption p tok with
      | false => rw [scan_cons_unreg p tok rest hop] at hscan; cases hscan
      | true =>
        obtain ⟨r0, hr0⟩ := Option.isSome_iff_exists.mp
          (by unfold hasOption at hop; exact hop)
        by_cases hris : r0 = r
        · -- the token is an alias of the help flag: it is set to true
          subst hris
          obtain ⟨oo, h1, h2, h3, h4, h5⟩ := hinv
          have hgo2 : getOptionQ p tok = some (.flag oo) := by
            simp only [getOptionQ, hr0]
            exact h1
          rw [scan_cons_flag p tok rest oo hop hgo2] at hscan
          have hfnv : flagNewValue oo = true := by
            simp [flagNewValue, BaseOption.hasDefaultValue, h2, h3]
          have hcc : checkConstraints (flagNewValue oo) oo.constraints_
              = .ok () := by
            rw [h4]
            rfl
          have hpf : parseFlag p tok = .ok (setOpt p tok (.flag
              { oo with value_ := flagNewValue oo, has_value_ := true })) := by
            simp [parseFlag, hgo2, setValueSame, hcc]
          rw [hpf] at hscan
          simp only at hscan
          have hinv2 : helpFlagAt (setOpt p tok (.flag
              { oo with value_ := flagNewValue oo, has_value_ := true }))
              r0 true := by
            refine ⟨{ oo with value_ := flagNewValue oo, has_value_ := true },
              ?_, h2, h3, h4, fun _ => ⟨rfl, hfnv⟩⟩
            simp only [setOpt, hr0]
            exact lookupA_updateA_self p.options_ r0 _ (by rw [h1]; rfl)
          exact ih rest _ p2 true hrest hscan hinv2 (Or.inl rfl)
        · -- the token belongs to some other option
          have hrne : lookupA p.names_ tok ≠ some r := by
            rw [hr0]
            intro hh
            exact hris (Option.some.inj hh)
          have hseen2 : seen = true ∨
              ∃ a ∈ rest, lookupA p.names_ a = some r := by
            rcases hseen with hs | ⟨a, ha, haeq⟩
            · exact Or.inl hs
            · refine Or.inr ⟨a, ?_, haeq⟩
              have hane : a ≠ tok := by
                rintro rfl
                exact hrne haeq
              exact List.mem_of_ne_of_mem hane ha
          cases hgo : getOptionQ p tok with
          | none => simp [scan, hop, hgo] at hscan
          | some oo0 =>
            cases oo0 with
            | flag of0 =>
              rw [scan_cons_flag p tok rest of0 hop hgo] at hscan
              cases hpf : parseFlag p tok with
              | error ep => rw [hpf] at hscan; cases hscan
              | ok p3 =>
                rw [hpf] at hscan
                simp only at hscan
                obtain ⟨o2, hp3⟩ := parseFlag_ok_shape p p3 tok hpf
                subst hp3
                refine ih rest _ p2 seen hrest hscan
                  (helpFlagAt_setOpt_ne p r tok (.flag o2) seen hrne hinv) ?_
                rw [setOpt_names]
                exact hseen2
            | single os =>
              match rest, hrest, hseen2 with
              | [], _, _ =>
                rw [scan_cons_single_nil p tok os hop hgo] at hscan
                cases hscan
              | arg :: rest2, hrest, hseen2 =>
                cases harg : hasOption p arg with
                | true =>
                  rw [scan_cons_single_reg p tok arg rest2 os hop hgo harg]
                    at hscan
                  cases hscan
                | false =>
                  rw [scan_cons_single_ok p tok arg rest2 os hop hgo harg]
                    at hscan
                  cases hsv : setValueSame os arg with
                  | error eo =>
                    obtain ⟨e1, ob⟩ := eo
                    rw [hsv] at hscan
                    cases hscan
                  | ok o2 =>
                    rw [hsv] at hscan
                    simp only at hscan
                    refine ih rest2 _ p2 seen
                      (by simp only [List.length_cons] at hrest; omega) hscan
                      (helpFlagAt_setOpt_ne p r tok (.single o2) seen hrne hinv)
                      ?_
                    rw [setOpt_names]
                    rcases hseen2 with hs | ⟨a, ha, haeq⟩
                    · exact Or.inl hs
                    · refine Or.inr ⟨a, ?_, haeq⟩
                      have hane : a ≠ arg := by
                        rintro rfl
                        unfold hasOption at harg
                        rw [haeq] at harg
                        cases harg
                      exact List.mem_of_ne_of_mem hane ha
            | compound oc =>
              by_cases hz :
                  (rest.takeWhile (fun t => !hasOption p t)).length = 0
              · rw [scan_cons_compound_zero p tok rest oc hop hgo hz] at hscan
                cases hscan
              · rw [scan_cons_compound p tok rest oc hop hgo hz] at hscan
                cases hsv : setValueSame oc
                    (rest.takeWhile (fun t => !hasOption p t)) with
                | error eo =>
                  obtain ⟨e1, ob⟩ := eo
                  rw [hsv] at hscan
                  cases hscan
                | ok o2 =>
                  rw [hsv] at hscan
                  simp only at hscan
                  refine ih _ _ p2 seen
                    (by simp only [List.length_drop]; omega) hscan
                    (helpFlagAt_setOpt_ne p r tok (.compound o2) seen hrne hinv)
                    ?_
                  rw [setOpt_names]
                  rcases hseen2 with hs | ⟨a, ha, haeq⟩
                  · exact Or.inl hs
                  · refine Or.inr ⟨a, ?_, haeq⟩
                    refine mem_drop_takeWhile (fun t => !hasOption p t) rest a
                      ha ?_
                    show (!hasOption p a) = false
                    unfold hasOption
                    rw [haeq]
                    rfl

theorem foldl_fst_extends
    (f : String × String → String × POpt → String × String)
    (hf : ∀ acc kv, ∃ u, (f acc kv).1 = acc.1 ++ u) :
    ∀ (l : List (String × POpt)) (acc : String × String),
    ∃ t, (List.foldl f acc l).1 = acc.1 ++ t := by
  intro l
  induction l with
  | nil =>
    intro acc
    exact ⟨"", (String.append_empty acc.1).symm⟩
  | cons kv rest ih =>
    intro acc
    obtain ⟨u, hu⟩ := hf acc kv
    obtain ⟨t, ht⟩ := ih (f acc kv)
    refine ⟨u ++ t, ?_⟩
    rw [List.foldl_cons, ht, hu, String.append_assoc]

theorem usage_prefix (p : Parser) :
    ∃ t, usage p = "Usage: ./exec_name" ++ t := by
  obtain ⟨t, ht⟩ := foldl_fst_extends usageStep
    (by
      intro acc kv
      refine ⟨" " ++ (if kv.2.isRequired then ("<", ">") else ("[", "]")).1 ++
        kv.1 ++ kv.2.argumentName ++
        (if kv.2.isRequired then ("<", ">") else ("[", "]")).2, ?_⟩
      simp [usageStep, String.append_assoc])
    p.options_ ("Usage: ./exec_name", "")
  refine ⟨t ++ "\n\n" ++
    (List.foldl usageStep ("Usage: ./exec_name", "") p.options_).2 ++ "\n", ?_⟩
  show (List.foldl usageStep ("Usage: ./exec_name", "") p.options_).1 ++
    "\n\n" ++
    (List.foldl usageStep ("Usage: ./exec_name", "") p.options_).2 ++ "\n" = _
  rw [ht]
  simp [String.append_assoc]

theorem usage_ne_missing (p : Parser) (s : String) :
    usage p ≠ "Missing option " ++ s := by
  obtain ⟨t, ht⟩ := usage_prefix p
  rw [ht]
  intro h
  have hd := congrArg String.data h
  rw [String.data_append, String.data_append,
      show "Usage: ./exec_name".data = 'U' :: "sage: ./exec_name".data from rfl,
      show "Missing option ".data = 'M' :: "issing option ".data from rfl]
    at hd
  simp only [List.cons_append] at hd
  injection hd with h1 h2
  cases h1

/-- Claim C6: with a help flag (default `false`, registered under `-h`) whose
alias appears among the scanned tokens, a successful scan is followed by the
help check raising the usage text as a `ParsingError` — the completeness
check never runs, so the parse never reports a `"Missing option"` error even
when required options are absent. -/
theorem help_short_circuits_completeness (p : Parser) (argv : List String)
    (p2 : Parser) (r a : String) (o : BaseOption Bool Bool)
    (hh : lookupA p.names_ "-h" = some r)
    (ho : lookupA p.options_ r = some (.flag o))
    (hdef : o.has_default_value_ = true) (hdv : o.default_value_ = false)
    (hcs : o.constraints_ = [])
    (ha : lookupA p.names_ a = some r) (hmem : a ∈ argv.drop 1)
    (hscan : scan p (argv.drop 1) = .ok p2) :
    parse p argv = .error (.parsing (usage p2), p2) ∧
    ∀ s, usage p2 ≠ "Missing option " ++ s := by
  have hinv : helpFlagAt p r false := ⟨o, ho, hdef, hdv, hcs, by simp⟩
  have hfin : helpFlagAt p2 r true := scan_helpFlag r (argv.drop 1).length
    (argv.drop 1) p p2 false le_rfl hscan hinv (Or.inr ⟨a, hmem, ha⟩)
  have hnames : p2.names_ = p.names_ :=
    scan_ok_names (argv.drop 1).length (argv.drop 1) p p2 le_rfl hscan
  obtain ⟨o2, ho2, hd2, hv2, hc2, hval⟩ := hfin
  obtain ⟨hvset, hvtrue⟩ := hval rfl
  have hopt : hasOption p2 "-h" = true := by
    unfold hasOption
    rw [hnames, hh]
    rfl
  have hgo2 : getOptionQ p2 "-h" = some (.flag o2) := by
    simp only [getOptionQ, hnames, hh]
    exact ho2
  have hgv : getValueBool p2 "-h" = .ok true := by
    simp [getValueBool, hopt, hgo2, BaseOption.getValue, hvset, hvtrue]
  have hch : checkHelpOption p2 = .error (.parsing (usage p2)) := by
    simp [checkHelpOption, hopt, hgv]
  constructor
  · have hscan2 : scan p argv.tail = .ok p2 := by
      rw [← List.drop_one]
      exact hscan
    simp [parse, hscan2, hch]
  · exact fun s => usage_ne_missing p2 s

/-- The flag built by `Parser::addHelpOption()`. -/
def c6Help : BaseOption Bool Bool :=
  ((mkBaseOption Bool Bool "-h" ["--help"]).addDescription
    "Shows how to use the program.").addDefaultValue false

/-- A parser with the help option and one required single option. -/
def c6Parser : Parser :=
  { options_ := [("-h", POpt.flag c6Help),
                 ("-s", mkSingleOption "-s" ["--single"])],
    names_ := [("-h", "-h"), ("--help", "-h"), ("-s", "-s"),
               ("--single", "-s")] }

/-- `c6Parser` after the scan set the help flag. -/
def c6After : Parser :=
  { options_ := [("-h",
      POpt.flag { c6Help with value_ := true, has_value_ := true }),
                 ("-s", mkSingleOption "-s" ["--single"])],
    names_ := c6Parser.names_ }

/-- Witness for C6: although `-s` is required, absent and defaultless,
supplying `--help` makes the parse fail with the usage text, which is not a
`"Missing option"` message. -/
theorem help_short_circuits_completeness_witness :
    scan c6Parser ["--help"] = .ok c6After ∧
    parse c6Parser ["prog", "--help"] =
      .error (.parsing (usage c6After), c6After) ∧
    ∀ s, usage c6After ≠ "Missing option " ++ s := by
  have hscan : scan c6Parser ["--help"] = .ok c6After := by
    simp [scan, parseFlag, flagNewValue, setValueSame, checkConstraints,
          setOpt, updateA, getOptionQ, hasOption, lookupA, c6Parser, c6After,
          c6Help, mkBaseOption, mkSingleOption, BaseOption.addDescription,
          BaseOption.addDefaultValue, BaseOption.beRequired,
          BaseOption.hasDefaultValue]
  have happ := help_short_circuits_completeness c6Parser ["prog", "--help"]
    c6After "-h" "--help" c6Help rfl rfl rfl rfl rfl rfl (by simp) hscan
  exact ⟨hscan, happ.1, happ.2⟩

end InputParser
